import Mathlib

set_option maxRecDepth 100000
set_option maxHeartbeats 1000000

/-!
Verification of the DNS toy resolver in `src/python/main.py`.

The Python source is shallowly embedded: byte buffers are `List Nat`
(each entry a byte value), a `io.BytesIO` reader is a buffer plus an
explicit position, and every fallible operation (`struct.unpack` on a
short read, indexing an empty `bytes`, `bytes([n])` with `n > 255`,
`str.encode("ascii")` on non-ASCII input) returns `Option`.

The transaction id produced by `random.randint(0, 65535)` is passed as
an explicit parameter (it is always a value in `[0, 65535]`).  The
mutable reader cursor is modelled by returning the new position from
each parsing function.  `decode_name` chases compression pointers and
can loop forever in Python, so its embedding carries a fuel parameter
that decreases at every loop iteration; a result of `none` for every
fuel therefore means the Python loop never terminates.
-/

/-- `reader.read(n)` of a `BytesIO` positioned at `pos`: returns *up to*
`n` bytes, silently fewer when the buffer ends early. -/
def reader_read (buf : List Nat) (pos n : Nat) : List Nat :=
  (buf.drop pos).take n

/-- `b".".join(parts)` — join byte-string parts with the dot byte 46. -/
def joinDot : List (List Nat) → List Nat
  | [] => []
  | [p] => p
  | p :: q :: ps => p ++ 46 :: joinDot (q :: ps)

/-- Decimal digits helper with structural fuel (`str(n)` for a natural). -/
def natToDecimalAux : Nat → Nat → List Nat
  | 0, _ => []
  | fuel + 1, n => if n < 10 then [48 + n] else natToDecimalAux fuel (n / 10) ++ [48 + n % 10]

/-- ASCII bytes of `str(n)`. -/
def natToDecimal (n : Nat) : List Nat := natToDecimalAux (n + 1) n

/-- `ip_to_string` from the source, composed with the `.encode()` done at
its call sites: `".".join(str(x) for x in ip)` as ASCII bytes. -/
def ip_to_string (ip : List Nat) : List Nat :=
  joinDot (ip.map natToDecimal)

/-- `DNSHeader` dataclass. -/
structure DNSHeader where
  id : Nat
  flags : Nat
  num_questions : Nat
  num_answers : Nat
  num_authorities : Nat
  num_additionals : Nat
deriving DecidableEq

/-- `DNSQuestion` dataclass (name kept as raw bytes, as in the source). -/
structure DNSQuestion where
  name : List Nat
  type_ : Nat
  class_ : Nat
deriving DecidableEq

/-- `DNSRecord` dataclass. -/
structure DNSRecord where
  name : List Nat
  type_ : Nat
  class_ : Nat
  ttl : Nat
  data : List Nat
deriving DecidableEq

/-- `DNSPacket` dataclass. -/
structure DNSPacket where
  header : DNSHeader
  questions : List DNSQuestion
  answers : List DNSRecord
  authorities : List DNSRecord
  additionals : List DNSRecord
deriving DecidableEq

/-- `struct.pack("!H", n)`: two big-endian bytes, failing outside `[0, 65535]`. -/
def pack16 (n : Nat) : Option (List Nat) :=
  if n < 65536 then some [n / 256, n % 256] else none

/-- `header_to_bytes`: `struct.pack("!HHHHHH", *fields)`. -/
def header_to_bytes (h : DNSHeader) : Option (List Nat) :=
  match pack16 h.id with
  | none => none
  | some a =>
    match pack16 h.flags with
    | none => none
    | some b =>
      match pack16 h.num_questions with
      | none => none
      | some c =>
        match pack16 h.num_answers with
        | none => none
        | some d =>
          match pack16 h.num_authorities with
          | none => none
          | some e =>
            match pack16 h.num_additionals with
            | none => none
            | some f => some (a ++ b ++ c ++ d ++ e ++ f)

/-- `question_to_bytes`: name followed by packed type and class. -/
def question_to_bytes (q : DNSQuestion) : Option (List Nat) :=
  match pack16 q.type_ with
  | none => none
  | some t =>
    match pack16 q.class_ with
    | none => none
    | some c => some (q.name ++ t ++ c)

/-- `domain_name.encode("ascii")`: fails on any code point at or above 128. -/
def strToAscii : List Char → Option (List Nat)
  | [] => some []
  | c :: cs =>
    if c.toNat < 128 then
      match strToAscii cs with
      | none => none
      | some bs => some (c.toNat :: bs)
    else none

/-- `bytes.split(b".")`: split on every dot byte, keeping empty parts. -/
def splitDots : List Nat → List (List Nat)
  | [] => [[]]
  | b :: bs =>
    match splitDots bs with
    | [] => if b = 46 then [[], []] else [[b]]
    | p :: ps => if b = 46 then [] :: p :: ps else (b :: p) :: ps

/-- The encoding loop of `encode_dns_name`: `bytes([len(part)]) + part`
for each part, concatenated; `bytes([n])` fails when `n > 255`. -/
def encodeParts : List (List Nat) → Option (List Nat)
  | [] => some []
  | p :: ps =>
    if p.length ≤ 255 then
      match encodeParts ps with
      | none => none
      | some r => some ((p.length :: p) ++ r)
    else none

/-- `encode_dns_name`: ASCII-encode, split on dots, length-prefix each
label, append a zero byte. -/
def encode_dns_name (domain_name : List Char) : Option (List Nat) :=
  match strToAscii domain_name with
  | none => none
  | some bs =>
    match encodeParts (splitDots bs) with
    | none => none
    | some enc => some (enc ++ [0])

/-- `build_query`; the random transaction id is an explicit parameter.
The source always passes `flags=0`. -/
def build_query (id : Nat) (domain_name : List Char) (record_type : Nat) :
    Option (List Nat) :=
  match encode_dns_name domain_name with
  | none => none
  | some name =>
    match header_to_bytes ⟨id, 0, 1, 0, 0, 0⟩ with
    | none => none
    | some h =>
      match question_to_bytes ⟨name, record_type, 1⟩ with
      | none => none
      | some q => some (h ++ q)

/-- The loop of `decode_name` plus `decode_compressed_name`, returning the
accumulated label list and the reader position after the name.  Fuel is
consumed at every iteration; pointer chases re-enter the loop at the
pointed-to offset and afterwards restore the caller position (`pos + 2`).
`(buf.drop pos).head?` is `reader.read(1)[0]`, failing at end of buffer. -/
def decodeNameParts (fuel : Nat) : List Nat → Nat → Option (List (List Nat) × Nat) :=
  Nat.rec (motive := fun _ => List Nat → Nat → Option (List (List Nat) × Nat))
    (fun _ _ => none)
    (fun _ ih buf pos =>
      match (buf.drop pos).head? with
      | none => none
      | some length =>
        if length = 0 then some ([], pos + 1)
        else if length &&& 192 ≠ 0 then
          match (buf.drop (pos + 1)).head? with
          | none => none
          | some b2 =>
            match ih buf ((length &&& 63) * 256 + b2) with
            | none => none
            | some (ps, _) => some ([joinDot ps], pos + 2)
        else
          match ih buf (pos + 1 + length) with
          | none => none
          | some (ps, p2) => some (reader_read buf (pos + 1) length :: ps, p2))
    fuel

/-- Unfolding equation for `decodeNameParts` at zero fuel. -/
theorem decodeNameParts_zero (buf : List Nat) (pos : Nat) :
    decodeNameParts 0 buf pos = none := rfl

/-- Unfolding equation for `decodeNameParts` at positive fuel: one loop
iteration of `decode_name`. -/
theorem decodeNameParts_succ (fuel : Nat) (buf : List Nat) (pos : Nat) :
    decodeNameParts (fuel + 1) buf pos =
      match (buf.drop pos).head? with
      | none => none
      | some length =>
        if length = 0 then some ([], pos + 1)
        else if length &&& 192 ≠ 0 then
          match (buf.drop (pos + 1)).head? with
          | none => none
          | some b2 =>
            match decodeNameParts fuel buf ((length &&& 63) * 256 + b2) with
            | none => none
            | some (ps, _) => some ([joinDot ps], pos + 2)
        else
          match decodeNameParts fuel buf (pos + 1 + length) with
          | none => none
          | some (ps, p2) => some (reader_read buf (pos + 1) length :: ps, p2) := rfl

/-- `decode_name`: the joined labels and the position after the name. -/
def decode_name (fuel : Nat) (buf : List Nat) (pos : Nat) :
    Option (List Nat × Nat) :=
  match decodeNameParts fuel buf pos with
  | none => none
  | some (ps, p) => some (joinDot ps, p)

/-- Big-endian 16-bit word at index `i` of an unpacked byte list. -/
def word (bs : List Nat) (i : Nat) : Nat :=
  bs.getD i 0 * 256 + bs.getD (i + 1) 0

/-- `parse_header`: `struct.unpack("!HHHHHH", reader.read(12))`, which
fails unless exactly 12 bytes were available. -/
def parse_header (buf : List Nat) (pos : Nat) : Option (DNSHeader × Nat) :=
  let bs := reader_read buf pos 12
  if bs.length = 12 then
    some (⟨word bs 0, word bs 2, word bs 4, word bs 6, word bs 8, word bs 10⟩,
          pos + 12)
  else none

/-- `parse_question`: a name, then `struct.unpack("!HH", reader.read(4))`. -/
def parse_question (fuel : Nat) (buf : List Nat) (pos : Nat) :
    Option (DNSQuestion × Nat) :=
  match decode_name fuel buf pos with
  | none => none
  | some (name, pos1) =>
    let bs := reader_read buf pos1 4
    if bs.length = 4 then some (⟨name, word bs 0, word bs 2⟩, pos1 + 4)
    else none

/-- `parse_record`, faithfully including the source's
`data = reader.read(10)` line: that read consumes up to 10 bytes whose
result is discarded, and the record fields are unpacked from the *next*
`reader.read(10)`. -/
def parse_record (fuel : Nat) (buf : List Nat) (pos : Nat) :
    Option (DNSRecord × Nat) :=
  match decode_name fuel buf pos with
  | none => none
  | some (name, pos1) =>
    let pos2 := pos1 + (reader_read buf pos1 10).length
    let bs := reader_read buf pos2 10
    if bs.length = 10 then
      let ty := word bs 0
      let cl := word bs 2
      let ttl := word bs 4 * 65536 + word bs 6
      let data_len := word bs 8
      if ty = 1 then
        let raw := reader_read buf (pos2 + 10) data_len
        some (⟨name, ty, cl, ttl, ip_to_string raw⟩, pos2 + 10 + raw.length)
      else if ty = 2 then
        match decode_name fuel buf (pos2 + 10) with
        | none => none
        | some (dn, pos4) => some (⟨name, ty, cl, ttl, dn⟩, pos4)
      else
        let raw := reader_read buf (pos2 + 10) data_len
        some (⟨name, ty, cl, ttl, raw⟩, pos2 + 10 + raw.length)
    else none

/-- The list comprehension `[parse_question(reader) for _ in range(n)]`. -/
def parse_questions (fuel : Nat) (buf : List Nat) (n : Nat) :
    Nat → Option (List DNSQuestion × Nat) :=
  Nat.rec (motive := fun _ => Nat → Option (List DNSQuestion × Nat))
    (fun pos => some ([], pos))
    (fun _ ih pos =>
      match parse_question fuel buf pos with
      | none => none
      | some (q, p) =>
        match ih p with
        | none => none
        | some (qs, p2) => some (q :: qs, p2))
    n

/-- The list comprehension `[parse_record(reader) for _ in range(n)]`. -/
def parse_records (fuel : Nat) (buf : List Nat) (n : Nat) :
    Nat → Option (List DNSRecord × Nat) :=
  Nat.rec (motive := fun _ => Nat → Option (List DNSRecord × Nat))
    (fun pos => some ([], pos))
    (fun _ ih pos =>
      match parse_record fuel buf pos with
      | none => none
      | some (r, p) =>
        match ih p with
        | none => none
        | some (rs, p2) => some (r :: rs, p2))
    n

/-- `parse_dns_packet`. -/
def parse_dns_packet (fuel : Nat) (data : List Nat) : Option DNSPacket :=
  match parse_header data 0 with
  | none => none
  | some (h, p0) =>
    match parse_questions fuel data h.num_questions p0 with
    | none => none
    | some (qs, p1) =>
      match parse_records fuel data h.num_answers p1 with
      | none => none
      | some (ans, p2) =>
        match parse_records fuel data h.num_authorities p2 with
        | none => none
        | some (auth, p3) =>
          match parse_records fuel data h.num_additionals p3 with
          | none => none
          | some (add, _) => some ⟨h, qs, ans, auth, add⟩

/-- `lookup_domain` after the transport step: parse the response bytes,
index `answers[0]` (an `IndexError` when empty), and apply `ip_to_string`
to the record's already-rendered payload. -/
def lookup_domain_on (fuel : Nat) (resp : List Nat) : Option (List Nat) :=
  match parse_dns_packet fuel resp with
  | none => none
  | some pkt =>
    match pkt.answers.head? with
    | none => none
    | some r => some (ip_to_string r.data)

/-- `get_answer`: first answer record whose type is `TYPE_A = 1`. -/
def get_answer (p : DNSPacket) : Option (List Nat) :=
  (p.answers.find? (fun x => x.type_ == 1)).map DNSRecord.data

/-- `get_nameserver_ip`: first additional record of type `TYPE_A`. -/
def get_nameserver_ip (p : DNSPacket) : Option (List Nat) :=
  (p.additionals.find? (fun x => x.type_ == 1)).map DNSRecord.data

/-- `get_nameserver`: first authority record of type `TYPE_NS = 2`
(the `utf-8` decode of the bytes is left as the raw bytes). -/
def get_nameserver (p : DNSPacket) : Option (List Nat) :=
  (p.authorities.find? (fun x => x.type_ == 2)).map DNSRecord.data

/-- Wire form of a label sequence as `encode_dns_name` lays it out:
each label preceded by its length byte, then the terminating zero. -/
def wireLabels : List (List Nat) → List Nat
  | [] => [0]
  | p :: ps => (p.length :: p) ++ wireLabels ps

/-- Outcome of one iteration of the `while True` loop in `resolve`. -/
inductive StepResult where
  | answer (ip : List Nat)
  | glue (ns_ip : List Nat)
  | glueless (ns_domain : List Nat)
  | error
deriving DecidableEq

/-- Third branch of the loop: `elif ns_domain := get_nameserver(response)`,
with Python truthiness (`None` and empty bytes are both falsy). -/
def resolveStep3 (p : DNSPacket) : StepResult :=
  match get_nameserver p with
  | none => .error
  | some ns => if ns.isEmpty then .error else .glueless ns

/-- Second branch of the loop: `elif ns_ip := get_nameserver_ip(response)`. -/
def resolveStep2 (p : DNSPacket) : StepResult :=
  match get_nameserver_ip p with
  | none => resolveStep3 p
  | some ip => if ip.isEmpty then resolveStep3 p else .glue ip

/-- One iteration of the `resolve` loop body applied to a decoded
response: `if ip := get_answer(response): return ip; elif ...`. -/
def resolveStep (p : DNSPacket) : StepResult :=
  match get_answer p with
  | none => resolveStep2 p
  | some ip => if ip.isEmpty then resolveStep2 p else .answer ip

/-! ## General lemmas about the embedding -/

theorem mask_iff_ge64 : ∀ n, n < 256 → (n &&& 192 ≠ 0 ↔ 64 ≤ n) := by decide

theorem mask_zero_of_lt64 : ∀ n, n < 64 → n &&& 192 = 0 := by decide

/-- `header_to_bytes` on the header `build_query` constructs. -/
theorem header_to_bytes_query (id : Nat) (hid : id < 65536) :
    header_to_bytes ⟨id, 0, 1, 0, 0, 0⟩ =
      some [id / 256, id % 256, 0, 0, 0, 1, 0, 0, 0, 0, 0, 0] := by
  simp [header_to_bytes, pack16, hid]

/-- `question_to_bytes` on an `IN`-class question with a 16-bit type. -/
theorem question_to_bytes_eval (nm : List Nat) (rt : Nat) (hrt : rt < 65536) :
    question_to_bytes ⟨nm, rt, 1⟩ = some (nm ++ [rt / 256, rt % 256, 0, 1]) := by
  simp [question_to_bytes, pack16, hrt]

/-- Successful `build_query` results have the fixed header/name/tail shape. -/
theorem build_query_eq (id rt : Nat) (s : List Char) (q : List Nat)
    (h : build_query id s rt = some q) :
    ∃ nm, encode_dns_name s = some nm ∧ id < 65536 ∧ rt < 65536 ∧
      q = [id / 256, id % 256, 0, 0, 0, 1, 0, 0, 0, 0, 0, 0] ++
          (nm ++ [rt / 256, rt % 256, 0, 1]) := by
  unfold build_query at h
  cases he : encode_dns_name s with
  | none => rw [he] at h; cases h
  | some nm =>
    rw [he] at h
    by_cases hid : id < 65536
    · by_cases hrt : rt < 65536
      · simp only [header_to_bytes_query id hid,
          question_to_bytes_eval nm rt hrt] at h
        injection h with h2
        exact ⟨nm, rfl, hid, hrt, h2.symm⟩
      · have hq : question_to_bytes ⟨nm, rt, 1⟩ = none := by
          simp [question_to_bytes, pack16, hrt]
        simp only [header_to_bytes_query id hid, hq] at h
        cases h
    · have hh : header_to_bytes ⟨id, 0, 1, 0, 0, 0⟩ = none := by
        simp [header_to_bytes, pack16, hid]
      simp only [hh] at h
      cases h

/-- Symbolic execution of `parse_record` through its type-A branch: once
the name is decoded and the (mis-positioned) field block declares type A,
the record parses successfully for EVERY declared rdata length. -/
theorem parse_record_typeA (fuel : Nat) (buf : List Nat) (pos pos1 : Nat) (name : List Nat)
    (c1 c2 l1 l2 l3 l4 d1 d2 : Nat)
    (hname : decode_name fuel buf pos = some (name, pos1))
    (h1 : (reader_read buf pos1 10).length = 10)
    (h2 : reader_read buf (pos1 + 10) 10 = [0, 1, c1, c2, l1, l2, l3, l4, d1, d2]) :
    parse_record fuel buf pos =
      some (⟨name, 1, c1 * 256 + c2, (l1 * 256 + l2) * 65536 + (l3 * 256 + l4),
              ip_to_string (reader_read buf (pos1 + 10 + 10) (d1 * 256 + d2))⟩,
            pos1 + 10 + 10 + (reader_read buf (pos1 + 10 + 10) (d1 * 256 + d2)).length) := by
  simp only [parse_record, hname, h1, h2]
  norm_num [word]

/-- Symbolic execution of `parse_record` through its opaque-type branch. -/
theorem parse_record_typeOther (fuel : Nat) (buf : List Nat) (pos pos1 : Nat) (name : List Nat)
    (a b c1 c2 l1 l2 l3 l4 d1 d2 : Nat)
    (hname : decode_name fuel buf pos = some (name, pos1))
    (h1 : (reader_read buf pos1 10).length = 10)
    (h2 : reader_read buf (pos1 + 10) 10 = [a, b, c1, c2, l1, l2, l3, l4, d1, d2])
    (hta : a * 256 + b ≠ 1) (htb : a * 256 + b ≠ 2) :
    parse_record fuel buf pos =
      some (⟨name, a * 256 + b, c1 * 256 + c2, (l1 * 256 + l2) * 65536 + (l3 * 256 + l4),
              reader_read buf (pos1 + 10 + 10) (d1 * 256 + d2)⟩,
            pos1 + 10 + 10 + (reader_read buf (pos1 + 10 + 10) (d1 * 256 + d2)).length) := by
  simp only [parse_record, hname, h1, h2]
  norm_num [word]
  rw [if_neg hta, if_neg htb]

/-! ## Claim theorems -/

/-- C1 (code bug witnessed): in `parse_record`, the ten bytes that
immediately follow the record's name — here declaring type A (1),
class 1, ttl 0, rdata length 4 — are consumed by the dead
`data = reader.read(10)` and discarded; the record's fields are then
unpacked from the *next* ten bytes (type 5, rdata length 2), so the
decoded record is `type 5, data [65, 66]` instead of the type-A record
the wire bytes describe. -/
theorem c1_record_fields_skewed :
    parse_record 1 [0, 0, 1, 0, 1, 0, 0, 0, 0, 0, 4, 0, 5, 0, 1, 0, 0, 0, 0, 0, 2, 65, 66] 0 =
      some (⟨[], 5, 1, 0, [65, 66]⟩, 23) := by decide

/-- C2 (code bug witnessed): on the well-formed wire response whose single
answer is an A record with rdata `[93, 184, 216, 34]` for query name
"example.com", `lookup_domain` fails (the record parser reads the fixed
fields ten bytes too far and runs out of buffer); and on a variant padded
with ten filler bytes so that parsing succeeds, `lookup_domain` returns
the dotted ASCII codes of the already-rendered string "93.184.216.34"
(i.e. "57.51.46.49.56.52.46.50.49.54.46.51.52"), not "93.184.216.34". -/
theorem c2_lookup_domain_fails :
    lookup_domain_on 10
      [0, 1, 129, 128, 0, 1, 0, 1, 0, 0, 0, 0,
       7, 101, 120, 97, 109, 112, 108, 101, 3, 99, 111, 109, 0, 0, 1, 0, 1,
       192, 12, 0, 1, 0, 1, 0, 0, 0, 60, 0, 4, 93, 184, 216, 34] = none ∧
    lookup_domain_on 10
      [0, 1, 129, 128, 0, 1, 0, 1, 0, 0, 0, 0,
       7, 101, 120, 97, 109, 112, 108, 101, 3, 99, 111, 109, 0, 0, 1, 0, 1,
       192, 12, 0, 0, 0, 0, 0, 0, 0, 0, 0, 0,
       0, 1, 0, 1, 0, 0, 0, 60, 0, 4, 93, 184, 216, 34] =
      some [53, 55, 46, 53, 49, 46, 52, 54, 46, 52, 57, 46, 53, 54, 46, 53, 50,
            46, 52, 54, 46, 53, 48, 46, 52, 57, 46, 53, 52, 46, 52, 54, 46, 53,
            49, 46, 53, 50] := ⟨by decide, by decide⟩

/-- C3 counterexample: the query encoded for stub-mode resolution of
"example.com" (type A) has flags bytes `0, 0` at offsets 2 and 3 — the
recursion-desired bit (mask 0x0100) is NOT set, refuting the claim that
stub queries carry it. -/
theorem c3_stub_query_flags_counterexample :
    build_query 1234 ['e', 'x', 'a', 'm', 'p', 'l', 'e', '.', 'c', 'o', 'm'] 1 =
      some [4, 210, 0, 0, 0, 1, 0, 0, 0, 0, 0, 0,
            7, 101, 120, 97, 109, 112, 108, 101, 3, 99, 111, 109, 0, 0, 1, 0, 1] := by
  decide

/-- C3 amended: every query the codec builds — stub mode and iterative
mode alike — is encoded with a flags field of 0; the recursion-desired
bit is never set. -/
theorem c3_flags_always_zero (id rt : Nat) (s : List Char) (q : List Nat)
    (h : build_query id s rt = some q) : reader_read q 2 2 = [0, 0] := by
  obtain ⟨nm, -, -, -, rfl⟩ := build_query_eq id rt s q h
  rfl

/-- Witness for `c3_flags_always_zero` at a concrete stub-mode query. -/
theorem c3_flags_always_zero_witness :
    reader_read [4, 210, 0, 0, 0, 1, 0, 0, 0, 0, 0, 0,
          7, 101, 120, 97, 109, 112, 108, 101, 3, 99, 111, 109, 0, 0, 1, 0, 1] 2 2 =
      [0, 0] :=
  c3_flags_always_zero 1234 1 ['e', 'x', 'a', 'm', 'p', 'l', 'e', '.', 'c', 'o', 'm'] _
    (by decide)

/-- C4 counterexample: a buffer whose resource record declares type A
together with rdata length 3 (≠ 4) decodes successfully to a record with
payload "8.8.8" — no `MalformedRecord` failure exists in the code. -/
theorem c4_short_a_record_accepted :
    parse_record 1
      [0, 0, 0, 0, 0, 0, 0, 0, 0, 0, 0, 0, 1, 0, 1, 0, 0, 0, 0, 0, 3, 8, 8, 8] 0 =
      some (⟨[], 1, 1, 0, [56, 46, 56, 46, 56]⟩, 24) := by decide

/-- C4 amended: an A record with ANY declared rdata length parses
successfully; the bytes available (up to the declared length) are
rendered as dot-separated decimals and no failure occurs.  The ten
`j` bytes are the ones consumed by the dead `reader.read(10)`. -/
theorem c4_a_record_any_length_parses
    (fuel j1 j2 j3 j4 j5 j6 j7 j8 j9 j10 c1 c2 t1 t2 t3 t4 d1 d2 : Nat)
    (payload : List Nat) :
    parse_record (fuel + 1)
      ([0, j1, j2, j3, j4, j5, j6, j7, j8, j9, j10,
        0, 1, c1, c2, t1, t2, t3, t4, d1, d2] ++ payload) 0 =
      some (⟨[], 1, c1 * 256 + c2, (t1 * 256 + t2) * 65536 + (t3 * 256 + t4),
              ip_to_string (payload.take (d1 * 256 + d2))⟩,
            21 + (payload.take (d1 * 256 + d2)).length) := by
  have h := parse_record_typeA (fuel + 1)
    ([0, j1, j2, j3, j4, j5, j6, j7, j8, j9, j10,
      0, 1, c1, c2, t1, t2, t3, t4, d1, d2] ++ payload) 0 1 []
    c1 c2 t1 t2 t3 t4 d1 d2 rfl rfl rfl
  rw [h]
  rfl

/-- C5 counterexample: a packet whose single answer record declares rdata
length 100 while only 3 bytes remain decodes successfully (with the 3
available bytes as payload) — the rdata read silently returns fewer bytes
than requested instead of failing with a `Truncated` condition. -/
theorem c5_truncated_rdata_accepted :
    parse_dns_packet 5
      [0, 0, 0, 0, 0, 0, 0, 1, 0, 0, 0, 0,
       0, 0, 0, 0, 0, 0, 0, 0, 0, 0, 0,
       0, 5, 0, 1, 0, 0, 0, 0, 0, 100, 9, 9, 9] =
      some ⟨⟨0, 0, 0, 1, 0, 0⟩, [], [⟨[], 5, 1, 0, [9, 9, 9]⟩], [], []⟩ := by decide

/-- C5 amended: reads of fixed-size field blocks do fail when the buffer
is exhausted (e.g. a buffer shorter than the 12-byte header makes
decoding fail), but label and rdata reads silently return only the
available bytes: a record whose declared rdata length exceeds the
remaining buffer still parses, with the short payload.  No distinct
`Truncated` condition exists. -/
theorem c5_truncation_gaps :
    (∀ (fuel : Nat) (buf : List Nat), buf.length < 12 →
      parse_dns_packet fuel buf = none) ∧
    (∀ (fuel j1 j2 j3 j4 j5 j6 j7 j8 j9 j10 d1 d2 : Nat) (payload : List Nat),
      payload.length < d1 * 256 + d2 →
      parse_record (fuel + 1)
        ([0, j1, j2, j3, j4, j5, j6, j7, j8, j9, j10,
          0, 5, 0, 1, 0, 0, 0, 0, d1, d2] ++ payload) 0 =
        some (⟨[], 5, 1, 0, payload⟩, 21 + payload.length)) := by
  constructor
  · intro fuel buf hlen
    have h12 : (reader_read buf 0 12).length ≠ 12 := by
      simp only [reader_read, List.drop_zero, List.length_take]
      omega
    simp [parse_dns_packet, parse_header, h12]
  · intro fuel j1 j2 j3 j4 j5 j6 j7 j8 j9 j10 d1 d2 payload hlt
    have h := parse_record_typeOther (fuel + 1)
      ([0, j1, j2, j3, j4, j5, j6, j7, j8, j9, j10,
        0, 5, 0, 1, 0, 0, 0, 0, d1, d2] ++ payload) 0 1 []
      0 5 0 1 0 0 0 0 d1 d2 rfl rfl rfl (by omega) (by omega)
    rw [h]
    have htake : payload.take (d1 * 256 + d2) = payload :=
      List.take_of_length_le (by omega)
    have hread : reader_read
        ([0, j1, j2, j3, j4, j5, j6, j7, j8, j9, j10,
          0, 5, 0, 1, 0, 0, 0, 0, d1, d2] ++ payload) (1 + 10 + 10)
        (d1 * 256 + d2) = payload.take (d1 * 256 + d2) := rfl
    rw [hread, htake]

/-- Witness for `c5_truncation_gaps` at concrete inputs: an 3-byte
buffer fails header decoding; a record declaring 100 rdata bytes with
only 2 present parses to the 2-byte payload. -/
theorem c5_truncation_gaps_witness :
    parse_dns_packet 1 [9, 9, 9] = none ∧
    parse_record 1
      ([0, 0, 0, 0, 0, 0, 0, 0, 0, 0, 0, 0, 5, 0, 1, 0, 0, 0, 0, 0, 100] ++ [9, 9]) 0 =
      some (⟨[], 5, 1, 0, [9, 9]⟩, 23) :=
  ⟨c5_truncation_gaps.1 1 [9, 9, 9] (by decide),
   (c5_truncation_gaps.2 0 0 0 0 0 0 0 0 0 0 0 0 100 [9, 9] (by decide)).trans
     (by decide)⟩

/-- C6 counterexample: a domain name consisting of a single 64-byte label
(64 letters `a`) is encoded successfully — length byte 64 followed by the
raw label — rather than failing with an `InvalidName` condition. -/
theorem c6_long_label_encoded :
    encode_dns_name (List.replicate 64 'a') =
      some (64 :: (List.replicate 64 97 ++ [0])) := by decide

/-- C6 amended: `encode_dns_name` fails for non-ASCII content (the
`.encode("ascii")` step), but a label of 64 bytes — beyond the DNS limit
of 63 — is silently emitted with its one-byte length prefix, producing a
malformed wire name instead of an `InvalidName` failure. -/
theorem c6_nonascii_fails :
    (∀ (s : List Char) (c : Char), c ∈ s → 128 ≤ c.toNat →
      encode_dns_name s = none) ∧
    encode_dns_name (List.replicate 64 'a') =
      some (64 :: (List.replicate 64 97 ++ [0])) := by
  constructor
  · intro s c hmem hge
    have h : strToAscii s = none := by
      induction hmem with
      | head as =>
        simp only [strToAscii]
        rw [if_neg (by omega)]
      | tail b hm ih =>
        by_cases hb : b.toNat < 128 <;> simp [strToAscii, hb, ih]
    simp [encode_dns_name, h]
  · decide

/-- Witness for `c6_nonascii_fails` at the non-ASCII name "é". -/
theorem c6_nonascii_fails_witness : encode_dns_name ['é'] = none :=
  c6_nonascii_fails.1 ['é'] 'é' (by decide) (by decide)

/-- C8 counterexample: the length byte 64 (top bits `01`, value strictly
between 63 and 192) is treated as a compression pointer: on the buffer
`[64, 3, 0, 1, 97, 0]` the decoder follows offset `(64 &&& 63)*256 + 3 = 3`
and returns the label "a" read there, with the cursor at 2 — it does not
read a 64-byte literal label. -/
theorem c8_byte64_followed_as_pointer :
    decode_name 5 [64, 3, 0, 1, 97, 0] 0 = some ([97], 2) := by decide

/-- C8 amended: a nonzero length byte `b < 256` is treated as a
compression pointer if and only if ANY of its top two bits is set, i.e.
iff `64 ≤ b`; only bytes 1–63 are treated as literal label lengths. -/
theorem c8_pointer_iff_top_bits (fuel : Nat) (buf : List Nat) (pos b : Nat)
    (hb : (buf.drop pos).head? = some b) (hlt : b < 256) :
    (64 ≤ b → decodeNameParts (fuel + 1) buf pos =
      match (buf.drop (pos + 1)).head? with
      | none => none
      | some b2 =>
        match decodeNameParts fuel buf ((b &&& 63) * 256 + b2) with
        | none => none
        | some (ps, _) => some ([joinDot ps], pos + 2)) ∧
    (1 ≤ b ∧ b ≤ 63 → decodeNameParts (fuel + 1) buf pos =
      match decodeNameParts fuel buf (pos + 1 + b) with
      | none => none
      | some (ps, p2) => some (reader_read buf (pos + 1) b :: ps, p2)) := by
  constructor
  · intro h64
    have hm : b &&& 192 ≠ 0 := (mask_iff_ge64 b hlt).mpr h64
    rw [decodeNameParts_succ, hb]
    simp only
    rw [if_neg (by omega : ¬ b = 0), if_pos hm]
  · rintro ⟨h1, h63⟩
    have hm : ¬ b &&& 192 ≠ 0 := fun hc =>
      absurd ((mask_iff_ge64 b hlt).mp hc) (by omega)
    rw [decodeNameParts_succ, hb]
    simp only
    rw [if_neg (by omega : ¬ b = 0), if_neg hm]

/-- Witness for `c8_pointer_iff_top_bits`: byte 64 at position 0 of
`[64, 3, 0, 1, 97, 0]` is chased as a pointer to offset 3. -/
theorem c8_pointer_iff_top_bits_witness :
    decodeNameParts 5 [64, 3, 0, 1, 97, 0] 0 = some ([[97]], 2) :=
  ((c8_pointer_iff_top_bits 4 [64, 3, 0, 1, 97, 0] 0 64 (by decide) (by decide)).1
    (by decide)).trans (by decide)

/-- C9 counterexample: a response whose single answer record has the
requested type NS (= 2) with payload `[97]` does NOT make the resolve
loop return that payload: `get_answer` only matches type A, so the step
falls through to the error branch. -/
theorem c9_requested_type_ignored :
    resolveStep ⟨⟨0, 0, 0, 1, 0, 0⟩, [], [⟨[], 2, 1, 0, [97]⟩], [], []⟩ =
        StepResult.error ∧
      resolveStep ⟨⟨0, 0, 0, 1, 0, 0⟩, [], [⟨[], 2, 1, 0, [97]⟩], [], []⟩ ≠
        StepResult.answer [97] := by decide

/-- C9 amended: one iteration of the `resolve` loop returns the payload
of the first answer record of type A (= 1) — regardless of the requested
record type — provided that payload is nonempty; the additional and
authority sections are not consulted in that case. -/
theorem c9_first_a_answer (p : DNSPacket) (r : DNSRecord)
    (hfind : p.answers.find? (fun x => x.type_ == 1) = some r)
    (hne : r.data ≠ []) : resolveStep p = StepResult.answer r.data := by
  have hg : get_answer p = some r.data := by simp [get_answer, hfind]
  have hne2 : r.data.isEmpty = false := by
    cases hd : r.data with
    | nil => exact absurd hd hne
    | cons x xs => rfl
  simp [resolveStep, hg, hne2]

/-- Witness for `c9_first_a_answer` at a concrete packet with one
type-A answer. -/
theorem c9_first_a_answer_witness :
    resolveStep ⟨⟨0, 0, 0, 1, 0, 0⟩, [], [⟨[], 1, 1, 0, [1, 2, 3, 4]⟩], [], []⟩ =
      StepResult.answer [1, 2, 3, 4] :=
  c9_first_a_answer _ ⟨[], 1, 1, 0, [1, 2, 3, 4]⟩ (by decide) (by decide)

/-- C10: name decoding does not terminate on the buffer `[0xC0, 0x00]`,
whose compression pointer points at its own position: for EVERY fuel
bound the fuel-indexed decoder fails to produce a result, i.e. the
unbounded Python loop never terminates — pointer chases are neither
depth-limited nor checked for revisiting an offset. -/
theorem c10_pointer_loop_diverges :
    ∀ fuel : Nat, decode_name fuel [192, 0] 0 = none := by
  have h : ∀ fuel : Nat, decodeNameParts fuel [192, 0] 0 = none := by
    intro fuel
    induction fuel with
    | zero => rfl
    | succ n ih =>
      rw [decodeNameParts_succ]
      simp [show ((192 : Nat) &&& 63) * 256 = 0 from by decide, ih]
  intro fuel
  simp [decode_name, h]

/-- Prepending a byte to the first part commutes with the dot-join. -/
theorem joinDot_cons (b : Nat) (p : List Nat) (ps : List (List Nat)) :
    joinDot ((b :: p) :: ps) = b :: joinDot (p :: ps) := by
  cases ps with
  | nil => rfl
  | cons q qs => rfl

/-- `bytes.split` never returns an empty list of parts. -/
theorem splitDots_ne_nil (bs : List Nat) : splitDots bs ≠ [] := by
  cases bs with
  | nil => simp [splitDots]
  | cons b bs2 =>
    simp only [splitDots]
    cases splitDots bs2 with
    | nil => by_cases hb : b = 46 <;> simp [hb]
    | cons p ps => by_cases hb : b = 46 <;> simp [hb]

/-- Joining the dot-split of a byte string restores the byte string. -/
theorem joinDot_splitDots (bs : List Nat) : joinDot (splitDots bs) = bs := by
  induction bs with
  | nil => rfl
  | cons b bs2 ih =>
    rcases hsp : splitDots bs2 with _ | ⟨p, ps⟩
    · exact absurd hsp (splitDots_ne_nil bs2)
    · rw [hsp] at ih
      by_cases hb : b = 46
      · subst hb
        simp only [splitDots, hsp, if_pos rfl]
        cases ps with
        | nil => simpa [joinDot] using ih
        | cons q qs => simpa [joinDot] using ih
      · simp only [splitDots, hsp, if_neg hb]
        rw [joinDot_cons, ih]

/-- When every part fits in a length byte, `encodeParts` succeeds and its
result followed by the terminator is the wire form of the labels. -/
theorem encodeParts_wire (parts : List (List Nat))
    (h : ∀ p ∈ parts, p.length ≤ 255) :
    ∃ e, encodeParts parts = some e ∧ e ++ [0] = wireLabels parts := by
  induction parts with
  | nil => exact ⟨[], rfl, rfl⟩
  | cons p ps ih =>
    obtain ⟨e, he, hw⟩ := ih (fun q hq => h q (List.mem_cons_of_mem _ hq))
    refine ⟨(p.length :: p) ++ e, ?_, ?_⟩
    · simp [encodeParts, h p (List.mem_cons_self _ _), he]
    · simp only [wireLabels, List.cons_append, List.append_assoc, hw]

/-- `encode_dns_name` produces exactly the wire form of the dot-split of
the ASCII bytes of the name. -/
theorem encode_dns_name_wire (s : List Char) (bs : List Nat)
    (hs : strToAscii s = some bs)
    (h : ∀ p ∈ splitDots bs, p.length ≤ 255) :
    encode_dns_name s = some (wireLabels (splitDots bs)) := by
  obtain ⟨e, he, hw⟩ := encodeParts_wire (splitDots bs) h
  simp [encode_dns_name, hs, he, hw]

/-- Decoding a wire-encoded label sequence (all labels of length 1–63)
returns exactly those labels and leaves the cursor right past the
terminating zero; `parts.length + 1` loop iterations suffice. -/
theorem decodeNameParts_wire (parts : List (List Nat)) :
    ∀ (buf suffix : List Nat) (pos : Nat),
      (∀ p ∈ parts, 1 ≤ p.length ∧ p.length ≤ 63) →
      buf.drop pos = wireLabels parts ++ suffix →
      decodeNameParts (parts.length + 1) buf pos =
        some (parts, pos + (wireLabels parts).length) := by
  induction parts with
  | nil =>
    intro buf suffix pos _ hdrop
    rw [decodeNameParts_succ, hdrop]
    simp [wireLabels]
  | cons p ps ih =>
    intro buf suffix pos hv hdrop
    have hp := hv p (List.mem_cons_self _ _)
    have hdrop0 : buf.drop pos = p.length :: (p ++ (wireLabels ps ++ suffix)) := by
      simpa [wireLabels, List.cons_append, List.append_assoc] using hdrop
    have hdrop1 : buf.drop (pos + 1) = p ++ (wireLabels ps ++ suffix) := by
      rw [← List.tail_drop, hdrop0]
      rfl
    have hlabel : reader_read buf (pos + 1) p.length = p := by
      rw [reader_read, hdrop1]
      exact List.take_left p _
    have hdrop2 : buf.drop (pos + 1 + p.length) = wireLabels ps ++ suffix := by
      rw [← List.drop_drop, hdrop1]
      exact List.drop_left p _
    have hrec := ih buf suffix (pos + 1 + p.length)
      (fun q hq => hv q (List.mem_cons_of_mem _ hq)) hdrop2
    have hlen : (p :: ps).length + 1 = ps.length + 1 + 1 := by simp
    rw [hlen, decodeNameParts_succ, hdrop0]
    simp only [List.head?_cons]
    rw [if_neg (by omega : ¬ p.length = 0),
        if_neg (by simpa using mask_zero_of_lt64 p.length (by omega)),
        hrec, hlabel]
    have : pos + 1 + p.length + (wireLabels ps).length =
        pos + (wireLabels (p :: ps)).length := by
      simp [wireLabels, List.length_append]
      omega
    rw [this]

/-- Zero-count record list parse returns immediately. -/
theorem parse_records_zero (fuel : Nat) (buf : List Nat) (pos : Nat) :
    parse_records fuel buf 0 pos = some ([], pos) := rfl

/-- C7: round-trip — for every valid domain name (ASCII characters whose
dot-split labels are all 1–63 bytes long) and every 16-bit record type,
decoding the bytes produced by `build_query` yields a packet whose single
question carries the same name bytes (case preserved), the same type,
and class IN (= 1). -/
theorem c7_roundtrip (id rt : Nat) (s : List Char) (bs : List Nat)
    (hid : id < 65536) (hrt : rt < 65536)
    (hs : strToAscii s = some bs)
    (hv : ∀ p ∈ splitDots bs, 1 ≤ p.length ∧ p.length ≤ 63) :
    ((build_query id s rt).bind
        (parse_dns_packet ((splitDots bs).length + 1))).map DNSPacket.questions =
      some [⟨bs, rt, 1⟩] := by
  have hle : ∀ p ∈ splitDots bs, p.length ≤ 255 :=
    fun p hp => le_trans (hv p hp).2 (by omega)
  have henc : encode_dns_name s = some (wireLabels (splitDots bs)) :=
    encode_dns_name_wire s bs hs hle
  have hbq : build_query id s rt =
      some ([id / 256, id % 256, 0, 0, 0, 1, 0, 0, 0, 0, 0, 0] ++
        (wireLabels (splitDots bs) ++ [rt / 256, rt % 256, 0, 1])) := by
    simp only [build_query, henc, header_to_bytes_query id hid,
      question_to_bytes_eval _ rt hrt]
  have hph : parse_header
      ([id / 256, id % 256, 0, 0, 0, 1, 0, 0, 0, 0, 0, 0] ++
        (wireLabels (splitDots bs) ++ [rt / 256, rt % 256, 0, 1])) 0 =
      some (⟨id / 256 * 256 + id % 256, 0, 1, 0, 0, 0⟩, 12) := rfl
  have hdropQ : ([id / 256, id % 256, 0, 0, 0, 1, 0, 0, 0, 0, 0, 0] ++
      (wireLabels (splitDots bs) ++ [rt / 256, rt % 256, 0, 1])).drop 12 =
      wireLabels (splitDots bs) ++ [rt / 256, rt % 256, 0, 1] := rfl
  have hwire := decodeNameParts_wire (splitDots bs)
    ([id / 256, id % 256, 0, 0, 0, 1, 0, 0, 0, 0, 0, 0] ++
      (wireLabels (splitDots bs) ++ [rt / 256, rt % 256, 0, 1]))
    [rt / 256, rt % 256, 0, 1] 12 hv hdropQ
  have hdn : decode_name ((splitDots bs).length + 1)
      ([id / 256, id % 256, 0, 0, 0, 1, 0, 0, 0, 0, 0, 0] ++
        (wireLabels (splitDots bs) ++ [rt / 256, rt % 256, 0, 1])) 12 =
      some (bs, 12 + (wireLabels (splitDots bs)).length) := by
    simp only [decode_name, hwire, joinDot_splitDots]
  have hq4 : reader_read
      ([id / 256, id % 256, 0, 0, 0, 1, 0, 0, 0, 0, 0, 0] ++
        (wireLabels (splitDots bs) ++ [rt / 256, rt % 256, 0, 1]))
      (12 + (wireLabels (splitDots bs)).length) 4 =
      [rt / 256, rt % 256, 0, 1] := by
    have h1 : ([id / 256, id % 256, 0, 0, 0, 1, 0, 0, 0, 0, 0, 0] ++
        (wireLabels (splitDots bs) ++ [rt / 256, rt % 256, 0, 1])).drop
          (12 + (wireLabels (splitDots bs)).length) =
        [rt / 256, rt % 256, 0, 1] := by
      rw [← List.drop_drop, hdropQ]
      exact List.drop_left _ _
    simp only [reader_read, h1]
    rfl
  have hw0 : word [rt / 256, rt % 256, 0, 1] 0 = rt / 256 * 256 + rt % 256 := rfl
  have hw2 : word [rt / 256, rt % 256, 0, 1] 2 = 1 := rfl
  have hrt2 : rt / 256 * 256 + rt % 256 = rt := by omega
  have hpq : parse_question ((splitDots bs).length + 1)
      ([id / 256, id % 256, 0, 0, 0, 1, 0, 0, 0, 0, 0, 0] ++
        (wireLabels (splitDots bs) ++ [rt / 256, rt % 256, 0, 1])) 12 =
      some (⟨bs, rt, 1⟩, 12 + (wireLabels (splitDots bs)).length + 4) := by
    simp only [parse_question, hdn, hq4, hw0, hw2, hrt2, List.length_cons,
      List.length_nil, if_true]
  have hqs : parse_questions ((splitDots bs).length + 1)
      ([id / 256, id % 256, 0, 0, 0, 1, 0, 0, 0, 0, 0, 0] ++
        (wireLabels (splitDots bs) ++ [rt / 256, rt % 256, 0, 1])) 1 12 =
      some ([⟨bs, rt, 1⟩], 12 + (wireLabels (splitDots bs)).length + 4) := by
    have e : parse_questions ((splitDots bs).length + 1)
        ([id / 256, id % 256, 0, 0, 0, 1, 0, 0, 0, 0, 0, 0] ++
          (wireLabels (splitDots bs) ++ [rt / 256, rt % 256, 0, 1])) 1 12 =
        match parse_question ((splitDots bs).length + 1)
          ([id / 256, id % 256, 0, 0, 0, 1, 0, 0, 0, 0, 0, 0] ++
            (wireLabels (splitDots bs) ++ [rt / 256, rt % 256, 0, 1])) 12 with
        | none => none
        | some (q, p) =>
          match parse_questions ((splitDots bs).length + 1)
            ([id / 256, id % 256, 0, 0, 0, 1, 0, 0, 0, 0, 0, 0] ++
              (wireLabels (splitDots bs) ++ [rt / 256, rt % 256, 0, 1])) 0 p with
          | none => none
          | some (qs, p2) => some (q :: qs, p2) := rfl
    rw [e, hpq]
    rfl
  have hpkt : parse_dns_packet ((splitDots bs).length + 1)
      ([id / 256, id % 256, 0, 0, 0, 1, 0, 0, 0, 0, 0, 0] ++
        (wireLabels (splitDots bs) ++ [rt / 256, rt % 256, 0, 1])) =
      some ⟨⟨id / 256 * 256 + id % 256, 0, 1, 0, 0, 0⟩, [⟨bs, rt, 1⟩], [], [], []⟩ := by
    simp only [parse_dns_packet, hph, hqs, parse_records_zero]
  rw [hbq]
  have hb : (some ([id / 256, id % 256, 0, 0, 0, 1, 0, 0, 0, 0, 0, 0] ++
      (wireLabels (splitDots bs) ++ [rt / 256, rt % 256, 0, 1]))).bind
        (parse_dns_packet ((splitDots bs).length + 1)) =
      parse_dns_packet ((splitDots bs).length + 1)
        ([id / 256, id % 256, 0, 0, 0, 1, 0, 0, 0, 0, 0, 0] ++
          (wireLabels (splitDots bs) ++ [rt / 256, rt % 256, 0, 1])) := rfl
  rw [hb, hpkt]
  rfl

/-- Witness for `c7_roundtrip` at name "ab.c", type 1, id 258. -/
theorem c7_roundtrip_witness :
    ((build_query 258 ['a', 'b', '.', 'c'] 1).bind
        (parse_dns_packet ((splitDots [97, 98, 46, 99]).length + 1))).map
        DNSPacket.questions =
      some [⟨[97, 98, 46, 99], 1, 1⟩] :=
  c7_roundtrip 258 1 ['a', 'b', '.', 'c'] [97, 98, 46, 99]
    (by decide) (by decide) (by decide) (by decide)
